import Mathlib

/-!
Shallow embedding of the control-message (ancillary data) codec and the
socket-address conversion of `src/sys/socket/mod.rs`, specialised to the
Linux x86_64 ABI that the source's `cfg` branches select:

* `cmsghdr` is 16 bytes: `cmsg_len : u64` at offset 0, `cmsg_level : i32`
  at offset 8, `cmsg_type : i32` at offset 12, payload at offset 16
  (layout of the repository's `ffi::cmsghdr`, which mirrors the kernel);
* the alignment unit `size_of::<type_of_cmsg_data>()` is 8 (the platform's
  native ancillary-data unit, pointer-size granularity as the spec states);
* `libc` constants: `SOL_SOCKET = 1`, `SCM_RIGHTS = 1`, `SCM_TIMESTAMP = 29`,
  `AF_UNIX = 1`, `AF_INET = 2`, `AF_INET6 = 10`, `AF_NETLINK = 16`,
  `ENOTCONN = 107`;
* structure sizes: `sockaddr_in` 16, `sockaddr_in6` 28, `sockaddr_un` 110
  (2-byte `sun_family` followed by a 108-byte `sun_path`, so
  `offset_of!(sockaddr_un, sun_path) = 2`), `sockaddr_nl` 12;
* `RawFd` is `i32` (4 bytes), `TimeVal` is two `i64` fields (16 bytes).

Buffers are lists of bytes (each reduced mod 256 on read, as memory holds
`u8`); machine integers are read and written in little-endian order with
explicit two's-complement conversion.
-/

/-- Memory bytes combined little-endian: `bytesToNat [b0, b1, ...]` is
`b0 + 256*b1 + ...`, each byte taken mod 256 as `u8` memory holds. -/
def bytesToNat : List Nat → Nat
  | [] => 0
  | b :: bs => b % 256 + 256 * bytesToNat bs

/-- Little-endian serialisation of the low `w` bytes of `n`. -/
def natToBytes : Nat → Nat → List Nat
  | 0, _ => []
  | w + 1, n => n % 256 :: natToBytes w (n / 256)

/-- Read `w` bytes little-endian at byte offset `off` of a buffer. -/
def readLE (buf : List Nat) (off w : Nat) : Nat :=
  bytesToNat ((buf.drop off).take w)

/-- Interpret an unsigned 32-bit value as a two's-complement `i32`. -/
def intOfNat32 (n : Nat) : Int :=
  if n < 2 ^ 31 then (n : Int) else (n : Int) - 2 ^ 32

/-- Interpret an unsigned 64-bit value as a two's-complement `i64`. -/
def intOfNat64 (n : Nat) : Int :=
  if n < 2 ^ 63 then (n : Int) else (n : Int) - 2 ^ 64

/-- Two's-complement representation of an `i32` value. -/
def intToNat32 (i : Int) : Nat := (i.emod (2 ^ 32)).toNat

/-- Two's-complement representation of an `i64` value. -/
def intToNat64 (i : Int) : Nat := (i.emod (2 ^ 64)).toNat

/-- Read an `i32` at byte offset `off`. -/
def readI32 (buf : List Nat) (off : Nat) : Int := intOfNat32 (readLE buf off 4)

/-- Read an `i64` at byte offset `off`. -/
def readI64 (buf : List Nat) (off : Nat) : Int := intOfNat64 (readLE buf off 8)

/-- `mem::size_of::<cmsghdr>()` on the modelled platform. -/
def SIZEOF_CMSGHDR : Nat := 16

/-- `libc::SOL_SOCKET` (Linux). -/
def SOL_SOCKET : Int := 1

/-- `libc::SCM_RIGHTS` (Linux). -/
def SCM_RIGHTS : Int := 1

/-- `libc::SCM_TIMESTAMP` (Linux). -/
def SCM_TIMESTAMP : Int := 29

/-- `cmsg_align` from the source:
`let align_bytes = size_of::<type_of_cmsg_data>() - 1;
(len + align_bytes) & !align_bytes` with the alignment unit 8, on `usize`
(64-bit, wrapping on overflow as in release mode; the mask
`!7 = 2^64 - 1 - 7` also truncates any carry past bit 63, so the `Nat`
expression below models the `u64` computation exactly). -/
def cmsg_align (len : Nat) : Nat :=
  (len + 7) &&& (2 ^ 64 - 1 - 7)

/-- `sys::time::TimeVal`: `tv_sec : i64`, `tv_usec : i64` (16 bytes). -/
structure TimeVal where
  tv_sec : Int
  tv_usec : Int
deriving DecidableEq, Repr

/-- The `UnknownCmsg` payload: the borrowed `cmsghdr` (its three fields)
plus the raw payload byte slice, exactly what the source's
`UnknownCmsg(&cmsghdr, &[u8])` captures. -/
structure UnknownCmsg where
  cmsg_len : Nat
  cmsg_level : Int
  cmsg_type : Int
  bytes : List Nat
deriving DecidableEq, Repr

/-- `ControlMessage` from the source: `ScmRights(&[RawFd])`,
`ScmTimestamp(&TimeVal)`, `Unknown(UnknownCmsg)`. -/
inductive ControlMessage where
  | ScmRights (fds : List Int)
  | ScmTimestamp (t : TimeVal)
  | Unknown (u : UnknownCmsg)
deriving DecidableEq, Repr

/-- `ControlMessage::len`: `cmsg_align(size_of::<cmsghdr>()) + size_of_val(payload)`. -/
def ControlMessage.len : ControlMessage → Nat
  | .ScmRights fds => cmsg_align SIZEOF_CMSGHDR + 4 * fds.length
  | .ScmTimestamp _ => cmsg_align SIZEOF_CMSGHDR + 16
  | .Unknown u => cmsg_align SIZEOF_CMSGHDR + u.bytes.length

/-- `ControlMessage::space`: `cmsg_align(self.len())`. -/
def ControlMessage.space (m : ControlMessage) : Nat := cmsg_align m.len

/-- Serialise a `cmsghdr` value: `cmsg_len : u64`, `cmsg_level : i32`,
`cmsg_type : i32` (the `cmsg_data: []` field is zero-sized). -/
def hdrBytes (cmsg_len : Nat) (cmsg_level cmsg_type : Int) : List Nat :=
  natToBytes 8 cmsg_len ++ natToBytes 4 (intToNat32 cmsg_level) ++
    natToBytes 4 (intToNat32 cmsg_type)

/-- Bytes of one `RawFd` (`i32`). -/
def fdBytes (fd : Int) : List Nat := natToBytes 4 (intToNat32 fd)

/-- `ControlMessage::encode_into`: writes the header (with `cmsg_len =
self.len()`), then `cmsg_align(size_of::<cmsghdr>()) - size_of::<cmsghdr>()`
padding bytes (zero of them on this platform), then the payload verbatim.
For `Unknown` the borrowed original header and payload bytes are copied
unchanged. -/
def encode_into : ControlMessage → List Nat
  | .ScmRights fds =>
      hdrBytes (ControlMessage.len (.ScmRights fds)) SOL_SOCKET SCM_RIGHTS ++
        List.replicate (cmsg_align SIZEOF_CMSGHDR - SIZEOF_CMSGHDR) 0 ++
        (fds.map fdBytes).flatten
  | .ScmTimestamp t =>
      hdrBytes (ControlMessage.len (.ScmTimestamp t)) SOL_SOCKET SCM_TIMESTAMP ++
        List.replicate (cmsg_align SIZEOF_CMSGHDR - SIZEOF_CMSGHDR) 0 ++
        natToBytes 8 (intToNat64 t.tv_sec) ++ natToBytes 8 (intToNat64 t.tv_usec)
  | .Unknown u =>
      hdrBytes u.cmsg_len u.cmsg_level u.cmsg_type ++ u.bytes

/-- One step of `CmsgIterator::next` on remaining buffer `buf` with the
iterator's message counter `next` (the source's `self.next`): returns the
yielded message and the remaining buffer after the cursor advance, or
`none` at any of the stop conditions, in source order. -/
def cmsgNext (buf : List Nat) (next : Nat) : Option (ControlMessage × List Nat) :=
  if buf.length < SIZEOF_CMSGHDR then none
  else
    let cmsg_len := readLE buf 0 8
    if cmsg_len < SIZEOF_CMSGHDR then none
    else
      let len := cmsg_len - SIZEOF_CMSGHDR
      let aligned_cmsg_len := if next = 0 then cmsg_len else cmsg_align cmsg_len
      if aligned_cmsg_len > buf.length then none
      else
        let rest := buf.drop aligned_cmsg_len
        let lvl := readI32 buf 8
        let ty := readI32 buf 12
        if lvl = SOL_SOCKET ∧ ty = SCM_RIGHTS then
          -- `slice::from_raw_parts(&cmsg.cmsg_data as *const _, 1)`:
          -- the reconstructed slice has hardcoded length 1.
          some (.ScmRights [readI32 buf SIZEOF_CMSGHDR], rest)
        else if lvl = SOL_SOCKET ∧ ty = SCM_TIMESTAMP then
          some (.ScmTimestamp ⟨readI64 buf 16, readI64 buf 24⟩, rest)
        else
          some (.Unknown ⟨cmsg_len, lvl, ty, (buf.drop SIZEOF_CMSGHDR).take len⟩, rest)

/-- Iterate `cmsgNext` with bounded fuel (structural recursion keeps the
definition kernel-computable). `cmsgDecode` supplies `buf.length` as fuel,
which bounds the iterator's steps on every buffer it can finish: each
yielded message consumes at least `SIZEOF_CMSGHDR = 16` bytes. -/
def decodeGo : Nat → List Nat → Nat → List ControlMessage
  | 0, _, _ => []
  | fuel + 1, buf, k =>
    match cmsgNext buf k with
    | none => []
    | some (m, rest) => m :: decodeGo fuel rest (k + 1)

/-- The full decoded sequence of `RecvMsg::cmsgs()`: iterate from the
buffer start with counter 0. -/
def cmsgDecode (buf : List Nat) : List ControlMessage := decodeGo buf.length buf 0

/-- `sendmsg`'s `len` accumulator (`len += cmsg.len()`), which is the size
the control-message buffer is allocated and encoded with
(`Vec::with_capacity(len); vec.set_len(len)`). -/
def sendmsg_buffer_len (cmsgs : List ControlMessage) : Nat :=
  (cmsgs.map ControlMessage.len).sum

/-- `sendmsg`'s `capacity` accumulator (`capacity += cmsg.space()`), the
value passed to the kernel as `msg_controllen`. -/
def sendmsg_controllen (cmsgs : List ControlMessage) : Nat :=
  (cmsgs.map ControlMessage.space).sum

/-- The bytes `sendmsg` encodes into its control-message buffer: each
message encoded in caller order at consecutive offsets. -/
def sendmsg_cmsg_buffer (cmsgs : List ControlMessage) : List Nat :=
  (cmsgs.map encode_into).flatten

/-- `libc::AF_UNIX` (Linux). -/
def AF_UNIX : Nat := 1

/-- `libc::AF_INET` (Linux). -/
def AF_INET : Nat := 2

/-- `libc::AF_INET6` (Linux). -/
def AF_INET6 : Nat := 10

/-- `libc::AF_NETLINK` (Linux). -/
def AF_NETLINK : Nat := 16

/-- `mem::size_of::<sockaddr_in>()`. -/
def SIZEOF_SOCKADDR_IN : Nat := 16

/-- `mem::size_of::<sockaddr_in6>()`. -/
def SIZEOF_SOCKADDR_IN6 : Nat := 28

/-- `mem::size_of::<sockaddr_un>()`. -/
def SIZEOF_SOCKADDR_UN : Nat := 110

/-- `mem::size_of::<sockaddr_nl>()`. -/
def SIZEOF_SOCKADDR_NL : Nat := 12

/-- `offset_of!(sockaddr_un, sun_path)`: the path field follows the
2-byte `sun_family`. -/
def OFFSET_SUN_PATH : Nat := 2

/-- `Errno::ENOTCONN` as its Linux error number. -/
def ENOTCONN : Nat := 107

/-- The `ss_family` discriminant: a `sa_family_t` (`u16`) stored at offset
0 of the `sockaddr_storage` buffer (then matched `as c_int`). -/
def ss_family (addr : List Nat) : Nat := readLE addr 0 2

/-- `SockAddr` (modelled from the spec for the absent `addr.rs` module):
each variant wraps the raw bytes of the OS structure for its family, and
the Unix variant additionally carries the explicit path length as in
`UnixAddr(sockaddr_un, usize)`. `Inet4`/`Inet6` stand for
`SockAddr::Inet(InetAddr::V4 ...)` and `SockAddr::Inet(InetAddr::V6 ...)`. -/
inductive SockAddr where
  | Inet4 (sin : List Nat)
  | Inet6 (sin6 : List Nat)
  | Unix (sun : List Nat) (pathlen : Nat)
  | Netlink (nl : List Nat)
deriving DecidableEq, Repr

/-- Outcome of `sockaddr_storage_to_addr`: `ok` and `err` are the two
`Result` cases (`err` carries the errno), `panic` is the fatal
`assert!`/`panic!` outcome, which never returns to the caller. -/
inductive ConvResult where
  | ok (a : SockAddr)
  | err (e : Nat)
  | panic
deriving DecidableEq, Repr

/-- `sockaddr_storage_to_addr(addr, len)`: errs with `ENOTCONN` when `len`
is smaller than the 2-byte family field, then dispatches on the family
discriminant in source order; `AF_INET`/`AF_INET6` `assert!` the exact
structure size (panicking otherwise), `AF_UNIX` takes `len -
offset_of!(sockaddr_un, sun_path)` as the path length with no
null-terminator requirement, and any other family panics
(`unexpected address family`). -/
def sockaddr_storage_to_addr (addr : List Nat) (len : Nat) : ConvResult :=
  if len < 2 then ConvResult.err ENOTCONN
  else if ss_family addr = AF_INET then
    if len = SIZEOF_SOCKADDR_IN then ConvResult.ok (.Inet4 (addr.take SIZEOF_SOCKADDR_IN))
    else ConvResult.panic
  else if ss_family addr = AF_INET6 then
    if len = SIZEOF_SOCKADDR_IN6 then ConvResult.ok (.Inet6 (addr.take SIZEOF_SOCKADDR_IN6))
    else ConvResult.panic
  else if ss_family addr = AF_UNIX then
    ConvResult.ok (.Unix (addr.take SIZEOF_SOCKADDR_UN) (len - OFFSET_SUN_PATH))
  else if ss_family addr = AF_NETLINK then
    ConvResult.ok (.Netlink (addr.take SIZEOF_SOCKADDR_NL))
  else ConvResult.panic

/-- `MSG_OOB` (Linux). -/
def MSG_OOB : Nat := 1

/-- `MSG_PEEK` (Linux). -/
def MSG_PEEK : Nat := 2

/-- `MSG_DONTWAIT` (Linux). -/
def MSG_DONTWAIT : Nat := 64

/-- `MSG_CTRUNC` (Linux). -/
def MSG_CTRUNC : Nat := 8

/-- `MSG_TRUNC` (Linux). -/
def MSG_TRUNC : Nat := 32

/-- `MSG_EOR` (Linux). -/
def MSG_EOR : Nat := 128

/-- `MSG_ERRQUEUE` (Linux). -/
def MSG_ERRQUEUE : Nat := 8192

/-- `MSG_CMSG_CLOEXEC` (Linux). -/
def MSG_CMSG_CLOEXEC : Nat := 1073741824

/-- `MsgFlags::all()`: the union of the flag constants declared by the
source's `libc_bitflags!` block (Linux `cfg` arms included). -/
def MsgFlags_all : Nat :=
  MSG_OOB ||| MSG_PEEK ||| MSG_DONTWAIT ||| MSG_CTRUNC ||| MSG_TRUNC |||
    MSG_EOR ||| MSG_ERRQUEUE ||| MSG_CMSG_CLOEXEC

/-- `MsgFlags::from_bits_truncate(bits)`: keep exactly the defined bits
(`bits & MsgFlags::all().bits()`), discarding the rest. -/
def from_bits_truncate (bits : Nat) : Nat := bits &&& MsgFlags_all

/-- The `RecvMsg` result structure: byte count, the kernel-reported
ancillary byte span, the (optional) decoded peer address and the
truncated kernel flags. -/
structure RecvMsg where
  bytes : Nat
  cmsg_buffer : List Nat
  address : Option SockAddr
  flags : Nat
deriving DecidableEq, Repr

/-- Outcome of `recvmsg`: `ok`, a propagated syscall `error`, or a
`panic` escaping from address conversion. -/
inductive RecvOutcome where
  | ok (r : RecvMsg)
  | error (e : Nat)
  | panic
deriving DecidableEq, Repr

/-- The result assembly of `recvmsg` after the syscall returned: `ret` is
the raw return value and `errno` the error code the collaborator
`Errno::result` would report for a negative `ret`; `msg_control` is the
kernel-reported ancillary span, `address`/`msg_namelen` the filled
generic address buffer and its reported length, `msg_flags` the
kernel-reported flags.  Mirrors the struct literal in the source:
`bytes` via `try!(Errno::result(ret))`, `address` via
`sockaddr_storage_to_addr(...).ok()` (an `Err` becomes `None`; a panic
escapes), `flags` via `MsgFlags::from_bits_truncate`. -/
def recvmsg_post (ret : Int) (errno : Nat) (msg_control : List Nat)
    (address : List Nat) (msg_namelen : Nat) (msg_flags : Nat) : RecvOutcome :=
  if ret < 0 then RecvOutcome.error errno
  else
    match sockaddr_storage_to_addr address msg_namelen with
    | ConvResult.panic => RecvOutcome.panic
    | ConvResult.err _ =>
        RecvOutcome.ok ⟨ret.toNat, msg_control, none, from_bits_truncate msg_flags⟩
    | ConvResult.ok a =>
        RecvOutcome.ok ⟨ret.toNat, msg_control, some a, from_bits_truncate msg_flags⟩

/-- A minimal control-message record: header with `cmsg_len = 16` (empty
payload) and an unclaimed `(level, type)` pair, so decoding yields an
`Unknown` message. -/
def c4buf : List Nat := natToBytes 8 16 ++ natToBytes 4 0 ++ natToBytes 4 0

/-- A raw ancillary buffer as the kernel would deliver it: one
`SCM_RIGHTS` record whose payload carries the two descriptors 5 and 6
(`cmsg_len = 24 = 16 + 2 * 4`). -/
def scmRightsTwoFdBuf : List Nat :=
  hdrBytes 24 SOL_SOCKET SCM_RIGHTS ++ fdBytes 5 ++ fdBytes 6

lemma natToBytes_length (w : Nat) : ∀ n, (natToBytes w n).length = w := by
  induction w with
  | zero => intro n; rfl
  | succ w ih => intro n; simp [natToBytes, ih]

lemma flatten_map_fdBytes_length (fds : List Int) :
    ((fds.map fdBytes).flatten).length = 4 * fds.length := by
  induction fds with
  | nil => rfl
  | cons fd fds ih =>
    simp only [List.map_cons, List.flatten_cons, List.length_append, ih,
      fdBytes, natToBytes_length, List.length_cons]
    ring

/-- Sanity: each message's encoding occupies exactly `ControlMessage::len`
bytes, so `sendmsg`'s buffer (allocated with the `len` accumulator) is
filled completely and `encode_into` never panics there. -/
lemma encode_into_length (m : ControlMessage) : (encode_into m).length = m.len := by
  have ha : cmsg_align 16 = 16 := by decide
  cases m with
  | ScmRights fds =>
    simp only [encode_into, ControlMessage.len, hdrBytes, List.length_append,
      natToBytes_length, List.length_replicate, flatten_map_fdBytes_length,
      SIZEOF_CMSGHDR, ha]
  | ScmTimestamp t =>
    simp only [encode_into, ControlMessage.len, hdrBytes, List.length_append,
      natToBytes_length, List.length_replicate, SIZEOF_CMSGHDR, ha]
  | Unknown u =>
    simp only [encode_into, ControlMessage.len, hdrBytes, List.length_append,
      natToBytes_length, SIZEOF_CMSGHDR, ha]

lemma testBit_mask64 (i : Nat) :
    (2 ^ 64 - 1 - 7).testBit i = (decide (3 ≤ i) && decide (i < 64)) := by
  have h : (2 ^ 64 - 1 - 7 : Nat) = (2 ^ 61 - 1) <<< 3 := by decide
  rw [h, Nat.testBit_shiftLeft, Nat.testBit_two_pow_sub_one]
  by_cases h3 : 3 ≤ i
  · have hge : i ≥ 3 := h3
    by_cases h64 : i < 64 <;> simp [hge, h64] <;> omega
  · have hge : ¬ i ≥ 3 := h3
    simp [hge]

lemma land_mask64 (y : Nat) (hy : y < 2 ^ 64) :
    y &&& (2 ^ 64 - 1 - 7) = 8 * (y / 8) := by
  have h8 : 8 * (y / 8) = (y >>> 3) <<< 3 := by
    rw [Nat.shiftRight_eq_div_pow, Nat.shiftLeft_eq]
    norm_num [Nat.mul_comm]
  rw [h8]
  apply Nat.eq_of_testBit_eq
  intro i
  rw [Nat.testBit_and, testBit_mask64, Nat.testBit_shiftLeft, Nat.testBit_shiftRight]
  by_cases h3 : 3 ≤ i
  · have he : 3 + (i - 3) = i := by omega
    have hge : i ≥ 3 := h3
    rw [he]
    by_cases h64 : i < 64
    · simp [hge, h64]
    · have hzero : y.testBit i = false := by
        apply Nat.testBit_lt_two_pow
        calc y < 2 ^ 64 := hy
          _ ≤ 2 ^ i := Nat.pow_le_pow_right (by norm_num) (by omega)
      simp [hge, h64, hzero]
  · have hge : ¬ i ≥ 3 := h3
    simp [hge]

/-- On arguments whose padding computation does not overflow `usize`,
`cmsg_align` rounds up to the next multiple of 8. -/
lemma cmsg_align_eq (x : Nat) (hx : x + 7 < 2 ^ 64) :
    cmsg_align x = 8 * ((x + 7) / 8) := by
  unfold cmsg_align
  exact land_mask64 (x + 7) hx

/-- C1: the claimed encode/decode round trip fails on the code.  Encoding
the one-element sequence `[ScmRights [3, 4]]` with `sendmsg`'s encoder and
decoding the resulting buffer with the `CmsgIterator` yields
`[ScmRights [3]]` — the second descriptor is lost — and not a sequence
equal in payload to the original.  The conjuncts pin the full iterator
trace: the first step yields `ScmRights [3]` and consumes the whole
buffer, the second step stops. -/
theorem c1_roundtrip_fails :
    cmsgNext (sendmsg_cmsg_buffer [ControlMessage.ScmRights [3, 4]]) 0 =
      some (ControlMessage.ScmRights [3], []) ∧
    cmsgNext [] 1 = none ∧
    cmsgDecode (sendmsg_cmsg_buffer [ControlMessage.ScmRights [3, 4]]) =
      [ControlMessage.ScmRights [3]] ∧
    cmsgDecode (sendmsg_cmsg_buffer [ControlMessage.ScmRights [3, 4]]) ≠
      [ControlMessage.ScmRights [3, 4]] := by
  refine ⟨by decide, by decide, by decide, by decide⟩

/-- C2: decoding an `SCM_RIGHTS` record whose payload carries the two
descriptors 5 and 6 yields `ScmRights [5]` — only the first descriptor —
because the iterator reconstructs the descriptor slice with hardcoded
length 1, contrary to the claim (and to the `ScmRights` documentation)
that all N descriptors are returned in payload order. -/
theorem c2_rights_first_fd_only :
    cmsgNext scmRightsTwoFdBuf 0 = some (ControlMessage.ScmRights [5], []) ∧
    cmsgDecode scmRightsTwoFdBuf = [ControlMessage.ScmRights [5]] ∧
    cmsgDecode scmRightsTwoFdBuf ≠ [ControlMessage.ScmRights [5, 6]] := by
  refine ⟨by decide, by decide, by decide⟩

/-- C3: for the message list `[ScmRights [0]]`, `sendmsg` allocates and
encodes into a buffer of `sendmsg_buffer_len = 20` bytes (the sum of the
messages' unpadded `CMSG_LEN` values) while passing
`sendmsg_controllen = 24` (the sum of the padded `CMSG_SPACE` values) to
the kernel as `msg_controllen` — so the buffer capacity does not equal
the sum of padded lengths as claimed, and the declared ancillary length
exceeds the allocation. -/
theorem c3_capacity_mismatch :
    sendmsg_buffer_len [ControlMessage.ScmRights [0]] = 20 ∧
    sendmsg_controllen [ControlMessage.ScmRights [0]] = 24 ∧
    (sendmsg_cmsg_buffer [ControlMessage.ScmRights [0]]).length = 20 ∧
    sendmsg_buffer_len [ControlMessage.ScmRights [0]] ≠
      sendmsg_controllen [ControlMessage.ScmRights [0]] := by
  refine ⟨by decide, by decide, by decide, by decide⟩

/-- C4: whenever the iterator yields a message, the cursor advances by the
unpadded declared total length (`cmsg_len`, read at offset 0 of the
remaining buffer) when the message is the first of the buffer (counter
`k = 0`), and by the padded length `cmsg_align cmsg_len` for every
subsequent message: the remaining buffer is the old one with exactly that
many bytes dropped from the front. -/
theorem c4_cursor_advance (buf : List Nat) (k : Nat) (m : ControlMessage)
    (rest : List Nat) (h : cmsgNext buf k = some (m, rest)) :
    rest = buf.drop (if k = 0 then readLE buf 0 8 else cmsg_align (readLE buf 0 8)) ∧
    buf.length = rest.length +
      (if k = 0 then readLE buf 0 8 else cmsg_align (readLE buf 0 8)) := by
  simp only [cmsgNext] at h
  set A := (if k = 0 then readLE buf 0 8 else cmsg_align (readLE buf 0 8)) with hA
  by_cases h1 : buf.length < SIZEOF_CMSGHDR
  · rw [if_pos h1] at h; exact Option.noConfusion h
  rw [if_neg h1] at h
  by_cases h2 : readLE buf 0 8 < SIZEOF_CMSGHDR
  · rw [if_pos h2] at h; exact Option.noConfusion h
  rw [if_neg h2] at h
  by_cases h3 : A > buf.length
  · rw [if_pos h3] at h; exact Option.noConfusion h
  rw [if_neg h3] at h
  split at h <;> try split at h
  all_goals simp only [Option.some.injEq, Prod.mk.injEq] at h
  all_goals refine ⟨h.2.symm, ?_⟩
  all_goals rw [← h.2, List.length_drop]
  all_goals omega

/-- Witness for C4 at a concrete input: a 16-byte buffer holding one
header with `cmsg_len = 16` and unclaimed `(level, type) = (0, 0)`; the
iterator (counter 0) yields it and advances by the unpadded length 16,
leaving the empty buffer. -/
theorem c4_cursor_advance_witness :
    ([] : List Nat) =
      c4buf.drop (if (0 : Nat) = 0 then readLE c4buf 0 8 else cmsg_align (readLE c4buf 0 8)) ∧
    c4buf.length = ([] : List Nat).length +
      (if (0 : Nat) = 0 then readLE c4buf 0 8 else cmsg_align (readLE c4buf 0 8)) :=
  c4_cursor_advance c4buf 0 (ControlMessage.Unknown ⟨16, 0, 0, []⟩) [] (by decide)

/-- C5: at any iterator position (buffer remainder `buf`, counter `k`),
if the remainder is shorter than one header, or the declared total length
`cmsg_len` is shorter than the header size, or the computed advance
distance exceeds the remainder, the iterator returns `none`.  The
statement quantifies over every buffer content satisfying the condition,
so the result depends on no byte beyond the buffer (in particular none
past its end). -/
theorem c5_truncation_stops (buf : List Nat) (k : Nat)
    (h : buf.length < SIZEOF_CMSGHDR ∨ readLE buf 0 8 < SIZEOF_CMSGHDR ∨
      buf.length < (if k = 0 then readLE buf 0 8 else cmsg_align (readLE buf 0 8))) :
    cmsgNext buf k = none := by
  simp only [cmsgNext]
  set A := (if k = 0 then readLE buf 0 8 else cmsg_align (readLE buf 0 8)) with hA
  by_cases h1 : buf.length < SIZEOF_CMSGHDR
  · rw [if_pos h1]
  rw [if_neg h1]
  by_cases h2 : readLE buf 0 8 < SIZEOF_CMSGHDR
  · rw [if_pos h2]
  rw [if_neg h2]
  have h3 : A > buf.length := by
    rcases h with h | h | h
    · exact absurd h h1
    · exact absurd h h2
    · omega
  rw [if_pos h3]

/-- Witness for C5 at a concrete input: the empty buffer is shorter than
one header, so the iterator stops immediately. -/
theorem c5_truncation_stops_witness : cmsgNext [] 0 = none :=
  c5_truncation_stops [] 0 (Or.inl (by decide))

/-- C6: for every payload length `L` (bounded by `isize::MAX`, as every
Rust slice length is, so the padding addition cannot overflow),
`cmsg_align (SIZEOF_CMSGHDR + L)` is a multiple of the 8-byte alignment
unit, is at least `SIZEOF_CMSGHDR + L`, and is the least such multiple. -/
theorem c6_align_least (L : Nat) (h : L < 2 ^ 63) :
    SIZEOF_CMSGHDR + L ≤ cmsg_align (SIZEOF_CMSGHDR + L) ∧
    8 ∣ cmsg_align (SIZEOF_CMSGHDR + L) ∧
    ∀ m, 8 ∣ m → SIZEOF_CMSGHDR + L ≤ m → cmsg_align (SIZEOF_CMSGHDR + L) ≤ m := by
  have he : cmsg_align (SIZEOF_CMSGHDR + L) = 8 * ((SIZEOF_CMSGHDR + L + 7) / 8) := by
    apply cmsg_align_eq
    simp only [SIZEOF_CMSGHDR]
    calc 16 + L + 7 < 16 + 2 ^ 63 + 7 := by omega
      _ < 2 ^ 64 := by norm_num
  refine ⟨?_, ?_, ?_⟩
  · rw [he]; omega
  · rw [he]; omega
  · intro m hm hle
    rw [he]
    omega

/-- Witness for C6 at `L = 1`: the padded length of a 1-byte payload is
the least multiple of 8 that is at least 17, namely 24. -/
theorem c6_align_least_witness :
    SIZEOF_CMSGHDR + 1 ≤ cmsg_align (SIZEOF_CMSGHDR + 1) ∧
    8 ∣ cmsg_align (SIZEOF_CMSGHDR + 1) ∧
    ∀ m, 8 ∣ m → SIZEOF_CMSGHDR + 1 ≤ m → cmsg_align (SIZEOF_CMSGHDR + 1) ≤ m :=
  c6_align_least 1 (by norm_num)

/-- C7: for every generic address buffer whose declared length covers the
2-byte family field but whose family discriminant is none of `AF_INET`,
`AF_INET6`, `AF_UNIX` or `AF_NETLINK`, `sockaddr_storage_to_addr` hits
the `panic!("unexpected address family")` arm — a fatal outcome distinct
from both the `ok` variants and the recoverable `err` result. -/
theorem c7_unknown_family_panics (addr : List Nat) (len : Nat) (hlen : 2 ≤ len)
    (h1 : ss_family addr ≠ AF_INET) (h2 : ss_family addr ≠ AF_INET6)
    (h3 : ss_family addr ≠ AF_UNIX) (h4 : ss_family addr ≠ AF_NETLINK) :
    sockaddr_storage_to_addr addr len = ConvResult.panic := by
  unfold sockaddr_storage_to_addr
  rw [if_neg (by omega), if_neg h1, if_neg h2, if_neg h3, if_neg h4]

/-- Witness for C7 at a concrete input: family discriminant 99 with
declared length 16 panics. -/
theorem c7_unknown_family_panics_witness :
    sockaddr_storage_to_addr [99, 0] 16 = ConvResult.panic :=
  c7_unknown_family_panics [99, 0] 16 (by norm_num) (by decide) (by decide)
    (by decide) (by decide)

/-- C8: for every generic address buffer with family `AF_UNIX` and any
declared length `len ≥ 2`, the conversion returns the Unix variant whose
explicit path length is `len - OFFSET_SUN_PATH` (declared length minus
the path-field offset).  The buffer contents beyond the family field are
unconstrained, so no null terminator is required. -/
theorem c8_unix_pathlen (addr : List Nat) (len : Nat)
    (hf : ss_family addr = AF_UNIX) (hlen : 2 ≤ len) :
    sockaddr_storage_to_addr addr len =
      ConvResult.ok (SockAddr.Unix (addr.take SIZEOF_SOCKADDR_UN) (len - OFFSET_SUN_PATH)) := by
  unfold sockaddr_storage_to_addr
  rw [if_neg (by omega), if_neg (by rw [hf]; decide), if_neg (by rw [hf]; decide),
    if_pos hf]

/-- Witness for C8 at a concrete input: an `AF_UNIX` buffer whose 4-byte
path `/tmp` is not null-terminated, with declared length 6, converts to
the Unix variant with path length 4. -/
theorem c8_unix_pathlen_witness :
    sockaddr_storage_to_addr [1, 0, 47, 116, 109, 112] 6 =
      ConvResult.ok (SockAddr.Unix ([1, 0, 47, 116, 109, 112].take SIZEOF_SOCKADDR_UN)
        (6 - OFFSET_SUN_PATH)) :=
  c8_unix_pathlen [1, 0, 47, 116, 109, 112] 6 (by decide) (by norm_num)

/-- C9: when the receive syscall succeeds (`ret ≥ 0`) and decoding the
returned generic address buffer fails with a recoverable error, `recvmsg`
still returns success: the address field is `None`, while the byte count,
ancillary span and flags are delivered unchanged — the decode failure is
not propagated as an error of `recvmsg`. -/
theorem c9_addr_decode_failure_swallowed (ret : Int) (errno : Nat)
    (msg_control addr : List Nat) (msg_namelen msg_flags : Nat) (ec : Nat)
    (hret : 0 ≤ ret)
    (hdec : sockaddr_storage_to_addr addr msg_namelen = ConvResult.err ec) :
    recvmsg_post ret errno msg_control addr msg_namelen msg_flags =
      RecvOutcome.ok ⟨ret.toNat, msg_control, none, from_bits_truncate msg_flags⟩ := by
  unfold recvmsg_post
  rw [if_neg (by omega), hdec]

/-- Witness for C9 at a concrete input: a successful 5-byte receive whose
reported address length 0 makes the address conversion fail with
`ENOTCONN`; the result is still `ok` with address `None`. -/
theorem c9_addr_decode_failure_swallowed_witness :
    recvmsg_post 5 0 [] [] 0 3 =
      RecvOutcome.ok ⟨(5 : Int).toNat, [], none, from_bits_truncate 3⟩ :=
  c9_addr_decode_failure_swallowed 5 0 [] [] 0 3 107 (by norm_num) (by decide)

/-- C10: whenever `recvmsg` returns success, the flags field equals the
kernel-reported `msg_flags` masked with the union of the defined
`MsgFlags` constants: bit-for-bit, a flag bit survives exactly when the
kernel set it and it corresponds to a defined constant; all other bits
are silently discarded. -/
theorem c10_flags_truncated (ret : Int) (errno : Nat) (msg_control addr : List Nat)
    (msg_namelen msg_flags : Nat) (r : RecvMsg)
    (h : recvmsg_post ret errno msg_control addr msg_namelen msg_flags =
      RecvOutcome.ok r) :
    r.flags = msg_flags &&& MsgFlags_all ∧
    ∀ i, r.flags.testBit i = (msg_flags.testBit i && MsgFlags_all.testBit i) := by
  have hf : r.flags = from_bits_truncate msg_flags := by
    unfold recvmsg_post at h
    split at h
    · exact RecvOutcome.noConfusion h
    · split at h
      · exact RecvOutcome.noConfusion h
      · cases h; rfl
      · cases h; rfl
  refine ⟨hf, ?_⟩
  intro i
  rw [hf]
  unfold from_bits_truncate
  exact Nat.testBit_and msg_flags MsgFlags_all i

/-- Witness for C10 at a concrete input: kernel flags `7` (bits 0, 1 and
2) are truncated to `3` — `MSG_OOB ||| MSG_PEEK` — since bit 2 is not a
defined `MsgFlags` constant. -/
theorem c10_flags_truncated_witness :
    (RecvMsg.mk 0 [] none 3).flags = 7 &&& MsgFlags_all ∧
    ∀ i, (RecvMsg.mk 0 [] none 3).flags.testBit i =
      ((7 : Nat).testBit i && MsgFlags_all.testBit i) :=
  c10_flags_truncated 0 0 [] [] 0 7 ⟨0, [], none, 3⟩ (by decide)
